import Mathlib

/-!
Verification of `src/simulator/src/vm.rs` (`enforce_soroban_compatibility` and
`is_float_op`).

The Rust code is a policy check layered on the external `wasmparser` crate:
it iterates the payload chunks produced by `Parser::new(0).parse_all(wasm)`,
and for every `Payload::CodeSectionEntry` drains the body's operators reader
(`while !ops.eof() { ops.read() }`), rejecting the module with a fixed message
as soon as an operator satisfies `is_float_op`.  Decode errors at either level
are converted to their string form (`e.to_string()`) and returned via `?`.

Embedding choices:
* `wasmparser`'s `Operator` enum is modelled by the inductive `Operator`
  below, covering a representative subset of variants (with their immediate
  fields where the variant has them).  `debugFmt` mirrors the Rust
  `format!("{:?}", op)` output of the derived `Debug` instance: the variant
  name, followed by the named fields for struct-like variants.
* The external decoder is abstracted: `Parser::new(0).parse_all(wasm)` is a
  parameter `parse_all : List Nat → List (Except String Payload)` mapping the
  raw bytes to the (already string-mapped) sequence of payload results, and a
  code-section body carries the result of `get_operators_reader`.
* Rust `str::starts_with` is embedded as `starts_with` via character lists.
-/

namespace Vm

/-- Model of the `wasmparser::Operator` enum: a representative subset of the
operator variants, keeping the immediate fields of struct-like variants.
Variant names are exactly the `wasmparser` variant names (which the derived
`Debug` instance prints). -/
inductive Operator where
  | Unreachable
  | Nop
  | Block
  | Loop
  | If
  | Else
  | End
  | Br (relative_depth : Nat)
  | BrIf (relative_depth : Nat)
  | Return
  | Call (function_index : Nat)
  | Drop
  | Select
  | LocalGet (local_index : Nat)
  | LocalSet (local_index : Nat)
  | LocalTee (local_index : Nat)
  | GlobalGet (global_index : Nat)
  | GlobalSet (global_index : Nat)
  | I32Const (value : Int)
  | I64Const (value : Int)
  | F32Const (value : Nat)
  | F64Const (value : Nat)
  | I32Eqz
  | I32Add
  | I32Sub
  | I32Mul
  | I32DivS
  | I64Add
  | I64Sub
  | I64Mul
  | I32Load
  | I64Load
  | I32Store
  | MemorySize
  | MemoryGrow
  | F32Add
  | F32Sub
  | F32Mul
  | F32Div
  | F32Neg
  | F32Abs
  | F32Sqrt
  | F32Eq
  | F64Add
  | F64Sub
  | F64Mul
  | F64Div
  | F64Neg
  | F64Sqrt
  | F64Lt
  | I32TruncF32S
  | I32TruncF64S
  | I32TruncF64U
  | I64TruncF32S
  | I64TruncF64S
  | I64TruncF64U
  | F32ConvertI32S
  | F64ConvertI32S
  | F64ConvertI64S
  | F32DemoteF64
  | F64PromoteF32
  | I32ReinterpretF32
  | I64ReinterpretF64
  | F32ReinterpretI32
  | F64ReinterpretI64
  | RefIsNull
  | RefFunc (function_index : Nat)
  | V128Load
  | I32x4Add
  | I64x2Mul
  | F32x4Add
  | F32x4Mul
  | F32x4Sqrt
  | F64x2Add
  | F64x2Mul
  | F64x2Sqrt

/-- The canonical name (tag) of an operator variant, without any immediate
fields: the `wasmparser` enum variant name. -/
def variantName : Operator → String
  | .Unreachable => "Unreachable"
  | .Nop => "Nop"
  | .Block => "Block"
  | .Loop => "Loop"
  | .If => "If"
  | .Else => "Else"
  | .End => "End"
  | .Br _ => "Br"
  | .BrIf _ => "BrIf"
  | .Return => "Return"
  | .Call _ => "Call"
  | .Drop => "Drop"
  | .Select => "Select"
  | .LocalGet _ => "LocalGet"
  | .LocalSet _ => "LocalSet"
  | .LocalTee _ => "LocalTee"
  | .GlobalGet _ => "GlobalGet"
  | .GlobalSet _ => "GlobalSet"
  | .I32Const _ => "I32Const"
  | .I64Const _ => "I64Const"
  | .F32Const _ => "F32Const"
  | .F64Const _ => "F64Const"
  | .I32Eqz => "I32Eqz"
  | .I32Add => "I32Add"
  | .I32Sub => "I32Sub"
  | .I32Mul => "I32Mul"
  | .I32DivS => "I32DivS"
  | .I64Add => "I64Add"
  | .I64Sub => "I64Sub"
  | .I64Mul => "I64Mul"
  | .I32Load => "I32Load"
  | .I64Load => "I64Load"
  | .I32Store => "I32Store"
  | .MemorySize => "MemorySize"
  | .MemoryGrow => "MemoryGrow"
  | .F32Add => "F32Add"
  | .F32Sub => "F32Sub"
  | .F32Mul => "F32Mul"
  | .F32Div => "F32Div"
  | .F32Neg => "F32Neg"
  | .F32Abs => "F32Abs"
  | .F32Sqrt => "F32Sqrt"
  | .F32Eq => "F32Eq"
  | .F64Add => "F64Add"
  | .F64Sub => "F64Sub"
  | .F64Mul => "F64Mul"
  | .F64Div => "F64Div"
  | .F64Neg => "F64Neg"
  | .F64Sqrt => "F64Sqrt"
  | .F64Lt => "F64Lt"
  | .I32TruncF32S => "I32TruncF32S"
  | .I32TruncF64S => "I32TruncF64S"
  | .I32TruncF64U => "I32TruncF64U"
  | .I64TruncF32S => "I64TruncF32S"
  | .I64TruncF64S => "I64TruncF64S"
  | .I64TruncF64U => "I64TruncF64U"
  | .F32ConvertI32S => "F32ConvertI32S"
  | .F64ConvertI32S => "F64ConvertI32S"
  | .F64ConvertI64S => "F64ConvertI64S"
  | .F32DemoteF64 => "F32DemoteF64"
  | .F64PromoteF32 => "F64PromoteF32"
  | .I32ReinterpretF32 => "I32ReinterpretF32"
  | .I64ReinterpretF64 => "I64ReinterpretF64"
  | .F32ReinterpretI32 => "F32ReinterpretI32"
  | .F64ReinterpretI64 => "F64ReinterpretI64"
  | .RefIsNull => "RefIsNull"
  | .RefFunc _ => "RefFunc"
  | .V128Load => "V128Load"
  | .I32x4Add => "I32x4Add"
  | .I64x2Mul => "I64x2Mul"
  | .F32x4Add => "F32x4Add"
  | .F32x4Mul => "F32x4Mul"
  | .F32x4Sqrt => "F32x4Sqrt"
  | .F64x2Add => "F64x2Add"
  | .F64x2Mul => "F64x2Mul"
  | .F64x2Sqrt => "F64x2Sqrt"

/-- Model of `format!("{:?}", op)` for the derived `Debug` instance of
`wasmparser::Operator`: fieldless variants print their name, struct-like
variants print `Name { field: value }` (float constants wrap their bits in
the `Ieee32`/`Ieee64` newtypes). -/
def debugFmt : Operator → String
  | .Br d => "Br \x7b relative_depth: " ++ toString d ++ " \x7d"
  | .BrIf d => "BrIf \x7b relative_depth: " ++ toString d ++ " \x7d"
  | .Call i => "Call \x7b function_index: " ++ toString i ++ " \x7d"
  | .LocalGet i => "LocalGet \x7b local_index: " ++ toString i ++ " \x7d"
  | .LocalSet i => "LocalSet \x7b local_index: " ++ toString i ++ " \x7d"
  | .LocalTee i => "LocalTee \x7b local_index: " ++ toString i ++ " \x7d"
  | .GlobalGet i => "GlobalGet \x7b global_index: " ++ toString i ++ " \x7d"
  | .GlobalSet i => "GlobalSet \x7b global_index: " ++ toString i ++ " \x7d"
  | .I32Const v => "I32Const \x7b value: " ++ toString v ++ " \x7d"
  | .I64Const v => "I64Const \x7b value: " ++ toString v ++ " \x7d"
  | .F32Const v => "F32Const \x7b value: Ieee32(" ++ toString v ++ ") \x7d"
  | .F64Const v => "F64Const \x7b value: Ieee64(" ++ toString v ++ ") \x7d"
  | .RefFunc i => "RefFunc \x7b function_index: " ++ toString i ++ " \x7d"
  | op => variantName op

/-- Embedding of Rust `str::starts_with`: the pattern's characters form a
prefix of the string's characters. -/
def starts_with (s pat : String) : Bool :=
  pat.data.isPrefixOf s.data

/-- Translation of `is_float_op` from `src/simulator/src/vm.rs`: format the
operator with `Debug` and test for the `F32` / `F64` name prefix. -/
def is_float_op (op : Operator) : Bool :=
  let name := debugFmt op
  starts_with name "F32" || starts_with name "F64"

/-- The fixed policy-violation message returned by
`enforce_soroban_compatibility` when a float operator is found. -/
def floatViolationMsg : String :=
  "floating-point instructions are not allowed under strict Soroban compatibility"

/-- Model of `wasmparser::OperatorsReader` for one function body: the
sequence of outcomes that successive `read()` calls produce.  `read` pops the
next outcome; `eof` is true when the sequence is exhausted. -/
structure OperatorsReader where
  items : List (Except String Operator)

/-- Model of `OperatorsReader::eof`. -/
def OperatorsReader.eof (r : OperatorsReader) : Bool :=
  r.items.isEmpty

/-- Model of `OperatorsReader::read` (already composed with
`map_err(|e| e.to_string())`): returns the next outcome and the advanced
reader.  Reading past the end (which the `eof` guard in the source prevents)
yields the decoder's end-of-stream error. -/
def OperatorsReader.read (r : OperatorsReader) :
    Except String Operator × OperatorsReader :=
  match r.items with
  | [] => (.error "unexpected end-of-file", r)
  | o :: rest => (o, ⟨rest⟩)

/-- Model of a `Payload::CodeSectionEntry` body: it carries the result of
`body.get_operators_reader()` (already composed with
`map_err(|e| e.to_string())`). -/
structure FunctionBody where
  get_operators_reader : Except String OperatorsReader

/-- Model of `wasmparser::Payload`: the source only distinguishes
`CodeSectionEntry`; the other structural chunks (version header, the type,
the import, function and export sections, custom sections, end marker, ...)
are skipped uniformly, so a few representative non-code variants suffice. -/
inductive Payload where
  | Version
  | TypeSection
  | ImportSection
  | FunctionSection
  | ExportSection
  | CodeSectionStart
  | CodeSectionEntry (body : FunctionBody)
  | CustomSection
  | End

/-- Translation of the `while !ops.eof()` loop in
`enforce_soroban_compatibility`: repeatedly `read` until `eof`, returning the
read error if a read fails, the fixed violation message if `is_float_op`
holds, and success when the reader is drained. -/
def scanBody (r : OperatorsReader) : Except String Unit :=
  if r.eof then .ok ()
  else
    match h : r.read with
    | (.error e, _) => .error e
    | (.ok op, r') =>
      if is_float_op op then .error floatViolationMsg
      else scanBody r'
termination_by r.items.length
decreasing_by
  cases r with
  | mk items =>
    cases items with
    | nil => simp [OperatorsReader.eof, List.isEmpty] at *
    | cons a as =>
      simp only [OperatorsReader.read] at h
      cases h
      simp

/-- The body of the `for payload in ...` loop for one successfully decoded
payload: a `CodeSectionEntry` gets its operators reader (propagating the
error) and is scanned; every other payload is skipped. -/
def checkPayload : Payload → Except String Unit
  | .CodeSectionEntry body =>
    match body.get_operators_reader with
    | .error e => .error e
    | .ok ops => scanBody ops
  | _ => .ok ()

/-- Translation of the `for payload in Parser::new(0).parse_all(wasm)` loop:
each payload result is unwrapped (`map_err(|e| e.to_string())?`), the payload
is processed, and the first error (decode or policy) is returned. -/
def scanPayloads : List (Except String Payload) → Except String Unit
  | [] => .ok ()
  | .error e :: _ => .error e
  | .ok p :: rest =>
    match checkPayload p with
    | .error e => .error e
    | .ok _ => scanPayloads rest

/-- Translation of `enforce_soroban_compatibility` from
`src/simulator/src/vm.rs`.  The external `wasmparser` decoder is abstracted
as the parameter `parse_all`, the model of
`Parser::new(0).parse_all(wasm).map(|r| r.map_err(|e| e.to_string()))`. -/
def enforce_soroban_compatibility
    (parse_all : List Nat → List (Except String Payload))
    (wasm : List Nat) : Except String Unit :=
  scanPayloads (parse_all wasm)

/-! Spec-side characterisations of the decoder's output: well-formedness
(every decode step succeeds) and float-freedom, stated as executable boolean
predicates over the payload stream. -/

/-- A decode outcome succeeded. -/
def exceptOk {α : Type} : Except String α → Bool
  | .ok _ => true
  | .error _ => false

/-- A decode outcome that succeeded and yielded a float-family operator. -/
def okFloat : Except String Operator → Bool
  | .ok op => is_float_op op
  | .error _ => false

/-- A function body is well-formed: its operators reader is obtained without
error and every operator read succeeds. -/
def bodyWellFormed (b : FunctionBody) : Bool :=
  match b.get_operators_reader with
  | .error _ => false
  | .ok r => r.items.all exceptOk

/-- A payload outcome is well-formed: it decoded successfully and, if it is a
code-section entry, its body is well-formed. -/
def payloadWellFormed : Except String Payload → Bool
  | .error _ => false
  | .ok (.CodeSectionEntry b) => bodyWellFormed b
  | .ok _ => true

/-- The whole payload stream of a module decodes without error: the model of
"the byte sequence decodes as a well-formed module". -/
def streamWellFormed (s : List (Except String Payload)) : Bool :=
  s.all payloadWellFormed

/-- A function body contains (a successfully decoded) float-family
operator. -/
def bodyHasFloat (b : FunctionBody) : Bool :=
  match b.get_operators_reader with
  | .error _ => false
  | .ok r => r.items.any okFloat

/-- A payload outcome is a code-section entry containing a float-family
operator. -/
def payloadHasFloat : Except String Payload → Bool
  | .ok (.CodeSectionEntry b) => bodyHasFloat b
  | _ => false

/-- Some function body of the module contains a float-family operator. -/
def streamHasFloat (s : List (Except String Payload)) : Bool :=
  s.any payloadHasFloat

/-- A payload outcome that decoded successfully and is not a code-section
entry (a structural chunk carrying no instructions). -/
def okNonCode : Except String Payload → Bool
  | .ok (.CodeSectionEntry _) => false
  | .ok _ => true
  | .error _ => false

/-! Equation lemmas re-expressing the `while !ops.eof()` loop `scanBody` by
the shape of the remaining read outcomes. -/

theorem scanBody_nil : scanBody ⟨[]⟩ = .ok () := by
  unfold scanBody
  rfl

theorem scanBody_error (e : String) (rest : List (Except String Operator)) :
    scanBody ⟨.error e :: rest⟩ = .error e := by
  unfold scanBody
  rfl

theorem scanBody_ok (op : Operator) (rest : List (Except String Operator)) :
    scanBody ⟨.ok op :: rest⟩ =
      if is_float_op op then .error floatViolationMsg else scanBody ⟨rest⟩ := by
  conv_lhs => rw [scanBody]
  simp [OperatorsReader.eof, OperatorsReader.read]

/-- A well-formed, float-free body scans cleanly. -/
theorem scanBody_clean (l : List (Except String Operator))
    (hwf : l.all exceptOk = true) (hnf : l.any okFloat = false) :
    scanBody ⟨l⟩ = .ok () := by
  induction l with
  | nil => exact scanBody_nil
  | cons o rest ih =>
    simp only [List.all_cons, Bool.and_eq_true] at hwf
    simp only [List.any_cons, Bool.or_eq_false_iff] at hnf
    cases o with
    | error e => simp [exceptOk] at hwf
    | ok op =>
      rw [scanBody_ok]
      have hop : is_float_op op = false := by simpa [okFloat] using hnf.1
      rw [hop]
      simpa using ih hwf.2 hnf.2

/-- A well-formed body containing a float operator scans to exactly the fixed
violation message. -/
theorem scanBody_float (l : List (Except String Operator))
    (hwf : l.all exceptOk = true) (hf : l.any okFloat = true) :
    scanBody ⟨l⟩ = .error floatViolationMsg := by
  induction l with
  | nil => simp at hf
  | cons o rest ih =>
    simp only [List.all_cons, Bool.and_eq_true] at hwf
    simp only [List.any_cons, Bool.or_eq_true] at hf
    cases o with
    | error e => simp [exceptOk] at hwf
    | ok op =>
      rw [scanBody_ok]
      by_cases hop : is_float_op op = true
      · rw [hop]
        simp
      · have hop' : is_float_op op = false := by simpa using hop
        rw [hop']
        simp only [if_neg (by simp [hop'] : ¬ (false = true))]
        refine ih hwf.2 ?_
        rcases hf with hf | hf
        · simp [okFloat, hop'] at hf
        · exact hf

/-- A body whose read outcomes include a failure scans to some error. -/
theorem scanBody_notWf (l : List (Except String Operator))
    (hwf : l.all exceptOk = false) :
    ∃ e, scanBody ⟨l⟩ = .error e := by
  induction l with
  | nil => simp at hwf
  | cons o rest ih =>
    cases o with
    | error e => exact ⟨e, scanBody_error e rest⟩
    | ok op =>
      rw [scanBody_ok]
      by_cases hop : is_float_op op = true
      · rw [hop]
        exact ⟨floatViolationMsg, by simp⟩
      · have hop' : is_float_op op = false := by simpa using hop
        rw [hop']
        simp only [List.all_cons, exceptOk, Bool.true_and] at hwf
        simpa using ih hwf

/-- Scanning the concatenation of two read sequences: the second part is only
reached when the first scans cleanly. -/
theorem scanBody_append (xs ys : List (Except String Operator)) :
    scanBody ⟨xs ++ ys⟩ =
      match scanBody ⟨xs⟩ with
      | .ok _ => scanBody ⟨ys⟩
      | .error e => .error e := by
  induction xs with
  | nil => simp [scanBody_nil]
  | cons o rest ih =>
    cases o with
    | error e => simp [scanBody_error]
    | ok op =>
      simp only [List.cons_append, scanBody_ok]
      by_cases hop : is_float_op op = true
      · rw [hop]
        simp
      · have hop' : is_float_op op = false := by simpa using hop
        rw [hop']
        simpa using ih

/-- Processing a single well-formed, float-free payload succeeds. -/
theorem checkPayload_clean (p : Payload)
    (hwf : payloadWellFormed (.ok p) = true)
    (hnf : payloadHasFloat (.ok p) = false) :
    checkPayload p = .ok () := by
  cases p with
  | CodeSectionEntry b =>
    simp only [payloadWellFormed, bodyWellFormed] at hwf
    simp only [payloadHasFloat, bodyHasFloat] at hnf
    cases hb : b.get_operators_reader with
    | error e => simp [hb] at hwf
    | ok r =>
      simp only [hb] at hwf hnf
      cases r with
      | mk items => simpa [checkPayload, hb] using scanBody_clean items hwf hnf
  | Version => rfl
  | TypeSection => rfl
  | ImportSection => rfl
  | FunctionSection => rfl
  | ExportSection => rfl
  | CodeSectionStart => rfl
  | CustomSection => rfl
  | End => rfl

/-- Processing a single well-formed payload containing a float operator
yields exactly the fixed violation message. -/
theorem checkPayload_float (p : Payload)
    (hwf : payloadWellFormed (.ok p) = true)
    (hf : payloadHasFloat (.ok p) = true) :
    checkPayload p = .error floatViolationMsg := by
  cases p with
  | CodeSectionEntry b =>
    simp only [payloadWellFormed, bodyWellFormed] at hwf
    simp only [payloadHasFloat, bodyHasFloat] at hf
    cases hb : b.get_operators_reader with
    | error e => simp [hb] at hwf
    | ok r =>
      simp only [hb] at hwf hf
      cases r with
      | mk items => simpa [checkPayload, hb] using scanBody_float items hwf hf
  | Version => simp [payloadHasFloat] at hf
  | TypeSection => simp [payloadHasFloat] at hf
  | ImportSection => simp [payloadHasFloat] at hf
  | FunctionSection => simp [payloadHasFloat] at hf
  | ExportSection => simp [payloadHasFloat] at hf
  | CodeSectionStart => simp [payloadHasFloat] at hf
  | CustomSection => simp [payloadHasFloat] at hf
  | End => simp [payloadHasFloat] at hf

/-- Processing a single ill-formed (but successfully produced) payload yields
some error. -/
theorem checkPayload_notWf (p : Payload)
    (hwf : payloadWellFormed (.ok p) = false) :
    ∃ e, checkPayload p = .error e := by
  cases p with
  | CodeSectionEntry b =>
    simp only [payloadWellFormed, bodyWellFormed] at hwf
    cases hb : b.get_operators_reader with
    | error e => exact ⟨e, by simp [checkPayload, hb]⟩
    | ok r =>
      simp only [hb] at hwf
      cases r with
      | mk items =>
        obtain ⟨e, he⟩ := scanBody_notWf items hwf
        exact ⟨e, by simp [checkPayload, hb, he]⟩
  | Version => simp [payloadWellFormed] at hwf
  | TypeSection => simp [payloadWellFormed] at hwf
  | ImportSection => simp [payloadWellFormed] at hwf
  | FunctionSection => simp [payloadWellFormed] at hwf
  | ExportSection => simp [payloadWellFormed] at hwf
  | CodeSectionStart => simp [payloadWellFormed] at hwf
  | CustomSection => simp [payloadWellFormed] at hwf
  | End => simp [payloadWellFormed] at hwf

/-- A well-formed, float-free payload stream scans cleanly. -/
theorem scanPayloads_clean (s : List (Except String Payload))
    (hwf : streamWellFormed s = true) (hnf : streamHasFloat s = false) :
    scanPayloads s = .ok () := by
  induction s with
  | nil => rfl
  | cons it rest ih =>
    simp only [streamWellFormed, List.all_cons, Bool.and_eq_true] at hwf
    simp only [streamHasFloat, List.any_cons, Bool.or_eq_false_iff] at hnf
    cases it with
    | error e => simp [payloadWellFormed] at hwf
    | ok p =>
      have hp := checkPayload_clean p hwf.1 hnf.1
      simp [scanPayloads, hp]
      exact ih hwf.2 hnf.2

/-- A well-formed stream containing a float operator scans to exactly the
fixed violation message. -/
theorem scanPayloads_float (s : List (Except String Payload))
    (hwf : streamWellFormed s = true) (hf : streamHasFloat s = true) :
    scanPayloads s = .error floatViolationMsg := by
  induction s with
  | nil => simp [streamHasFloat] at hf
  | cons it rest ih =>
    simp only [streamWellFormed, List.all_cons, Bool.and_eq_true] at hwf
    simp only [streamHasFloat, List.any_cons, Bool.or_eq_true] at hf
    cases it with
    | error e => simp [payloadWellFormed] at hwf
    | ok p =>
      by_cases hp : payloadHasFloat (.ok p) = true
      · have := checkPayload_float p hwf.1 hp
        simp [scanPayloads, this]
      · have hp' : payloadHasFloat (.ok p) = false := by simpa using hp
        have hc := checkPayload_clean p hwf.1 hp'
        simp only [scanPayloads, hc]
        refine ih hwf.2 ?_
        rcases hf with hf | hf
        · exact absurd hf hp
        · exact hf

/-- A stream with any decode failure (payload-level or inside a body) scans
to some error, never to success. -/
theorem scanPayloads_notWf (s : List (Except String Payload))
    (hwf : streamWellFormed s = false) :
    ∃ e, scanPayloads s = .error e := by
  induction s with
  | nil => simp [streamWellFormed] at hwf
  | cons it rest ih =>
    cases it with
    | error e => exact ⟨e, rfl⟩
    | ok p =>
      by_cases hp : payloadWellFormed (.ok p) = true
      · cases hc : checkPayload p with
        | error e => exact ⟨e, by simp [scanPayloads, hc]⟩
        | ok u =>
          simp only [streamWellFormed, List.all_cons, hp, Bool.true_and] at hwf
          obtain ⟨e, he⟩ := ih hwf
          exact ⟨e, by simp [scanPayloads, hc, he]⟩
      · have hp' : payloadWellFormed (.ok p) = false := by simpa using hp
        obtain ⟨e, he⟩ := checkPayload_notWf p hp'
        exact ⟨e, by simp [scanPayloads, he]⟩

/-- Scanning the concatenation of two payload streams: the second part runs
only when the first scans cleanly. -/
theorem scanPayloads_append (xs ys : List (Except String Payload)) :
    scanPayloads (xs ++ ys) =
      match scanPayloads xs with
      | .ok _ => scanPayloads ys
      | .error e => .error e := by
  induction xs with
  | nil => simp [scanPayloads]
  | cons it rest ih =>
    cases it with
    | error e => simp [scanPayloads]
    | ok p =>
      cases hc : checkPayload p with
      | error e => simp [scanPayloads, hc]
      | ok u => simpa [scanPayloads, hc] using ih

/-- Testing a list for a prefix no longer than an initial segment ignores
anything appended after that segment. -/
theorem isPrefixOf_append_left (p s t : List Char) (h : p.length ≤ s.length) :
    p.isPrefixOf (s ++ t) = p.isPrefixOf s := by
  induction p generalizing s with
  | nil => simp [List.isPrefixOf]
  | cons a as ih =>
    cases s with
    | nil => simp at h
    | cons b bs =>
      simp only [List.cons_append, List.isPrefixOf, List.append_eq]
      rw [ih bs (by simpa using h)]

/-- Unfolding of `is_float_op` through its `let` binding. -/
theorem is_float_op_def (op : Operator) :
    is_float_op op =
      (starts_with (debugFmt op) "F32" || starts_with (debugFmt op) "F64") :=
  rfl

/-- A stream of successfully decoded non-code payloads scans cleanly. -/
theorem scanPayloads_nonCode (front : List (Except String Payload))
    (h : front.all okNonCode = true) : scanPayloads front = .ok () := by
  induction front with
  | nil => rfl
  | cons it rest ih =>
    simp only [List.all_cons, Bool.and_eq_true] at h
    cases it with
    | error e => simp [okNonCode] at h
    | ok p =>
      have hc : checkPayload p = .ok () := by
        cases p with
        | CodeSectionEntry b => simp [okNonCode] at h
        | Version => rfl
        | TypeSection => rfl
        | ImportSection => rfl
        | FunctionSection => rfl
        | ExportSection => rfl
        | CodeSectionStart => rfl
        | CustomSection => rfl
        | End => rfl
      simp only [scanPayloads, hc]
      exact ih h.2

/-- C1: for every byte sequence that decodes as a well-formed module in which
no instruction of any function body is a float-family instruction,
`enforce_soroban_compatibility` returns `Ok`. -/
theorem C1_enforce_ok_of_wellFormed_noFloat
    (parse_all : List Nat → List (Except String Payload)) (wasm : List Nat)
    (hwf : streamWellFormed (parse_all wasm) = true)
    (hnf : streamHasFloat (parse_all wasm) = false) :
    enforce_soroban_compatibility parse_all wasm = .ok () :=
  scanPayloads_clean (parse_all wasm) hwf hnf

/-- Witness for C1, instantiated at the decoding of an empty module (no code
section at all: just the version header and the end marker). -/
theorem C1_witness :
    enforce_soroban_compatibility (fun _ => [.ok .Version, .ok .End]) [] =
      .ok () :=
  C1_enforce_ok_of_wellFormed_noFloat (fun _ => [.ok .Version, .ok .End]) []
    (by decide) (by decide)

/-- C2: for every well-formed module containing at least one float-family
instruction in some function body, `enforce_soroban_compatibility` fails with
exactly the fixed Soroban-compatibility message, wherever the instruction
occurs. -/
theorem C2_enforce_float_violation
    (parse_all : List Nat → List (Except String Payload)) (wasm : List Nat)
    (hwf : streamWellFormed (parse_all wasm) = true)
    (hf : streamHasFloat (parse_all wasm) = true) :
    enforce_soroban_compatibility parse_all wasm =
      .error floatViolationMsg :=
  scanPayloads_float (parse_all wasm) hwf hf

/-- Witness for C2, instantiated at a module whose second function body holds
one `F64Add` among integer instructions. -/
theorem C2_witness :
    enforce_soroban_compatibility
      (fun _ =>
        [.ok .Version, .ok .TypeSection, .ok .FunctionSection,
         .ok .CodeSectionStart,
         .ok (.CodeSectionEntry ⟨.ok ⟨[.ok (.I32Const 1), .ok .End]⟩⟩),
         .ok (.CodeSectionEntry
           ⟨.ok ⟨[.ok (.I64Const 2), .ok .F64Add, .ok .End]⟩⟩),
         .ok .End]) [] =
      .error floatViolationMsg :=
  C2_enforce_float_violation _ [] (by decide) (by decide)

/-- C3: on every input whose decoding fails somewhere (payload level or
inside a body), `enforce_soroban_compatibility` returns some `Err` and never
`Ok`; the check is a total function of the stream, so no panic is
modelled. -/
theorem C3_enforce_err_of_malformed
    (parse_all : List Nat → List (Except String Payload)) (wasm : List Nat)
    (hwf : streamWellFormed (parse_all wasm) = false) :
    ∃ e, enforce_soroban_compatibility parse_all wasm = .error e :=
  scanPayloads_notWf (parse_all wasm) hwf

/-- Witness for C3, instantiated at a truncated input: the decoder yields the
version header and then an end-of-file decode error. -/
theorem C3_witness :
    ∃ e,
      enforce_soroban_compatibility
        (fun _ => [.ok .Version, .error "unexpected end-of-file"]) [] =
        .error e :=
  C3_enforce_err_of_malformed
    (fun _ => [.ok .Version, .error "unexpected end-of-file"]) [] (by decide)

/-- C8: the verdict of `enforce_soroban_compatibility` is a pure function of
the input bytes (and of the decoder): two invocations on the same byte
sequence yield the same verdict. -/
theorem C8_enforce_deterministic
    (parse_all : List Nat → List (Except String Payload)) (wasm : List Nat) :
    enforce_soroban_compatibility parse_all wasm =
      enforce_soroban_compatibility parse_all wasm :=
  rfl

/-- C4: `is_float_op` classifies an operator as forbidden exactly when its
canonical variant name begins with `F32` or `F64`; the immediate fields
printed by `Debug` after the name never affect the classification. -/
theorem C4_is_float_op_iff_tag :
    ∀ op : Operator,
      is_float_op op =
        (starts_with (variantName op) "F32" ||
          starts_with (variantName op) "F64") := by
  intro op
  cases op <;>
    first
      | decide
      | (rw [is_float_op_def]
         simp only [debugFmt, starts_with, String.data_append,
           List.append_assoc]
         rw [isPrefixOf_append_left, isPrefixOf_append_left]
         all_goals try simp only [variantName]
         all_goals decide)

/-- C10: the prefix classification also forbids the 128-bit SIMD float
variants, whose names begin with `F32x4` or `F64x2` and therefore with `F32`
or `F64`. -/
theorem C10_is_float_op_simd :
    is_float_op .F32x4Add = true ∧ is_float_op .F32x4Mul = true ∧
      is_float_op .F32x4Sqrt = true ∧ is_float_op .F64x2Add = true ∧
      is_float_op .F64x2Mul = true ∧ is_float_op .F64x2Sqrt = true ∧
      is_float_op .I32x4Add = false ∧ is_float_op .I64x2Mul = false ∧
      is_float_op .V128Load = false := by
  decide

/-- C5: evaluation at the disputed input.  A well-formed module whose single
function body performs a 64-bit float-to-integer conversion
(`i64.trunc_f64_s`, variant `I64TruncF64S`, fed from an `f64` local) PASSES
the check: the variant name begins with `I64`, not `F32`/`F64`, so
`is_float_op` does not classify this float-consuming conversion as
forbidden and `enforce_soroban_compatibility` returns `Ok`. -/
theorem C5_trunc_conversion_passes :
    is_float_op .I64TruncF64S = false ∧
      streamWellFormed
        [.ok .Version, .ok .TypeSection, .ok .FunctionSection,
         .ok .CodeSectionStart,
         .ok (.CodeSectionEntry
           ⟨.ok ⟨[.ok (.LocalGet 0), .ok .I64TruncF64S, .ok .End]⟩⟩),
         .ok .End] = true ∧
      enforce_soroban_compatibility
        (fun _ =>
          [.ok .Version, .ok .TypeSection, .ok .FunctionSection,
           .ok .CodeSectionStart,
           .ok (.CodeSectionEntry
             ⟨.ok ⟨[.ok (.LocalGet 0), .ok .I64TruncF64S, .ok .End]⟩⟩),
           .ok .End]) [] = .ok () := by
  refine ⟨by decide, by decide, ?_⟩
  have h1 : is_float_op (.LocalGet 0) = false := by decide
  have h2 : is_float_op .I64TruncF64S = false := by decide
  have h3 : is_float_op Operator.End = false := by decide
  simp [enforce_soroban_compatibility, scanPayloads, checkPayload,
    scanBody_ok, scanBody_nil, h1, h2, h3]

/-- C6: early exit.  When every payload before the first code-section entry
is a successfully decoded non-code chunk and that first body's first read
yields a float-family operator, the check returns the fixed violation
message whatever follows — in particular later corrupted bodies are never
reached. -/
theorem C6_early_exit
    (parse_all : List Nat → List (Except String Payload)) (wasm : List Nat)
    (front : List (Except String Payload)) (body : FunctionBody)
    (r : OperatorsReader) (op : Operator)
    (restOps : List (Except String Operator))
    (rest : List (Except String Payload))
    (hparse : parse_all wasm = front ++ .ok (.CodeSectionEntry body) :: rest)
    (hfront : front.all okNonCode = true)
    (hreader : body.get_operators_reader = .ok r)
    (hfirst : r.items = .ok op :: restOps)
    (hfloat : is_float_op op = true) :
    enforce_soroban_compatibility parse_all wasm =
      .error floatViolationMsg := by
  have hbody : checkPayload (.CodeSectionEntry body) =
      .error floatViolationMsg := by
    obtain ⟨items⟩ := r
    simp only [OperatorsReader.mk.injEq] at hfirst
    subst hfirst
    simp [checkPayload, hreader, scanBody_ok, hfloat]
  unfold enforce_soroban_compatibility
  rw [hparse, scanPayloads_append, scanPayloads_nonCode front hfront]
  simp [scanPayloads, hbody]

/-- Witness for C6: the first body opens with `F32Add`; the stream then holds
a payload-level decode error and a body whose operators reader cannot even be
obtained, yet the verdict is the float-violation message. -/
theorem C6_witness :
    enforce_soroban_compatibility
      (fun _ =>
        [.ok .Version,
         .ok (.CodeSectionEntry ⟨.ok ⟨[.ok .F32Add, .ok .End]⟩⟩),
         .error "malformed section id",
         .ok (.CodeSectionEntry ⟨.error "unexpected end-of-file"⟩)]) [] =
      .error floatViolationMsg :=
  C6_early_exit _ [] [.ok .Version] ⟨.ok ⟨[.ok .F32Add, .ok .End]⟩⟩
    ⟨[.ok .F32Add, .ok .End]⟩ .F32Add [.ok .End]
    [.error "malformed section id",
     .ok (.CodeSectionEntry ⟨.error "unexpected end-of-file"⟩)]
    rfl (by decide) rfl rfl (by decide)

/-- C7: a decode failure at the payload-chunk level (first conjunct) or
inside a body's instruction stream (second conjunct) immediately ends the
scan with exactly that error's text: whatever comes after the failing step is
never processed. -/
theorem C7_decode_error_propagates :
    (∀ (parse_all : List Nat → List (Except String Payload))
        (wasm : List Nat) (front : List (Except String Payload))
        (e : String) (rest : List (Except String Payload)),
        parse_all wasm = front ++ .error e :: rest →
        scanPayloads front = .ok () →
        enforce_soroban_compatibility parse_all wasm = .error e) ∧
      (∀ (pre : List (Except String Operator)) (e : String)
          (rest : List (Except String Operator)),
          pre.all (fun o => exceptOk o && !okFloat o) = true →
          scanBody ⟨pre ++ .error e :: rest⟩ = .error e) := by
  constructor
  · intro parse_all wasm front e rest hparse hfront
    unfold enforce_soroban_compatibility
    rw [hparse, scanPayloads_append, hfront]
    rfl
  · intro pre e rest hpre
    simp only [List.all_eq_true, Bool.and_eq_true, Bool.not_eq_true'] at hpre
    have h1 : pre.all exceptOk = true := by
      rw [List.all_eq_true]
      intro o ho
      exact (hpre o ho).1
    have h2 : pre.any okFloat = false := by
      rw [List.any_eq_false]
      intro o ho
      simpa using (hpre o ho).2
    rw [scanBody_append, scanBody_clean pre h1 h2]
    exact scanBody_error e rest

/-- Witness for C7, applying both conjuncts: a chunk-level error after the
version header, and an instruction-level error after one clean integer
operator (with further items after each error that are ignored). -/
theorem C7_witness :
    enforce_soroban_compatibility
      (fun _ => [.ok .Version, .error "section size mismatch",
        .ok .TypeSection]) [] = .error "section size mismatch" ∧
      scanBody ⟨[.ok .I32Add, .error "invalid opcode", .ok .F32Add]⟩ =
        .error "invalid opcode" :=
  ⟨C7_decode_error_propagates.1 _ [] [.ok .Version] "section size mismatch"
      [.ok .TypeSection] rfl rfl,
    C7_decode_error_propagates.2 [.ok .I32Add] "invalid opcode"
      [.ok .F32Add] (by decide)⟩

/-- C9: termination.  Each `read` on a non-exhausted operators reader
strictly shrinks the remaining read outcomes (the loop makes forward
progress), and the whole check is a total function: on every input it
returns either `Ok` or some `Err`. -/
theorem C9_progress_and_total :
    (∀ r : OperatorsReader, r.eof = false →
        (r.read).2.items.length < r.items.length) ∧
      (∀ (parse_all : List Nat → List (Except String Payload))
          (wasm : List Nat),
          enforce_soroban_compatibility parse_all wasm = .ok () ∨
            ∃ e, enforce_soroban_compatibility parse_all wasm = .error e) := by
  constructor
  · intro r hr
    obtain ⟨items⟩ := r
    cases items with
    | nil => simp [OperatorsReader.eof] at hr
    | cons o rest => simp [OperatorsReader.read]
  · intro parse_all wasm
    cases h : enforce_soroban_compatibility parse_all wasm with
    | ok u => exact Or.inl rfl
    | error e => exact Or.inr ⟨e, rfl⟩

/-- Witness for C9: progress on a concrete two-outcome reader, and totality
at a concrete decoder output. -/
theorem C9_witness :
    ((OperatorsReader.mk [.ok .Nop, .ok .End]).read).2.items.length < 2 ∧
      (enforce_soroban_compatibility (fun _ => [.ok .Version]) [] = .ok () ∨
        ∃ e, enforce_soroban_compatibility (fun _ => [.ok .Version]) [] =
          .error e) :=
  ⟨C9_progress_and_total.1 ⟨[.ok .Nop, .ok .End]⟩ (by decide),
    C9_progress_and_total.2 (fun _ => [.ok .Version]) []⟩

end Vm
